import Mathlib

/-
  Verification of the Terminal core (session controller, synchronization
  engine, retry loop, transaction manager, tunnel supervisor) of the
  Far-NetBox remote file-transfer client, as implemented in
  src/core/Terminal.cpp.  The C++ code is embedded shallowly: pure logic
  becomes Lean functions, mutable state becomes explicit state records,
  user interaction becomes oracle parameters, and exceptions become sum
  results.
-/

namespace NetBox

/-! ## Timestamp precision helpers

The repository's `Common` unit (not part of the sources at hand) provides
`TModificationFmt`, `LessDateTimePrecision`, `ReduceDateTimePrecision` and
`CompareFileTime`, used by `Terminal.cpp`. -/

/-- Modelled from the spec: "Modification precision — timestamp granularity
tag (none/minute/hour/full)"; the repository's `TModificationFmt` type is not
among the sources at hand.  Constructors are declared coarsest first. -/
inductive ModFmt where
  | mfNone
  | mfHour
  | mfMinute
  | mfFull
deriving DecidableEq

/-- Modelled from the spec: rank of a precision tag; a coarser tag ranks lower. -/
def ModFmt.rank : ModFmt → Nat
  | .mfNone => 0
  | .mfHour => 1
  | .mfMinute => 2
  | .mfFull => 3

/-- Modelled from the spec: `LessDateTimePrecision` — the coarser ("lesser")
of two precision tags. -/
def lessDateTimePrecision (a b : ModFmt) : ModFmt :=
  if a.rank ≤ b.rank then a else b

/-- Modelled from the spec: `ReduceDateTimePrecision` — truncate a timestamp
(taken to be seconds) to a precision tag; "comparisons must reduce both sides
to the coarser precision". -/
def reduceDateTimePrecision (t : Nat) (p : ModFmt) : Nat :=
  match p with
  | .mfNone => 0
  | .mfHour => t - t % 3600
  | .mfMinute => t - t % 60
  | .mfFull => t

/-- Modelled from the spec: `CompareFileTime` — three-way comparison of
timestamps (negative, zero, positive). -/
def compareFileTime (a b : Nat) : Int :=
  if a < b then -1 else if b < a then 1 else 0

/-! ## Path and formatting helpers (`UnixExtractFilePath`,
`UnixIncludeTrailingBackslash`, `UnixComparePaths`,
`IncludeTrailingBackslash`, zero-padded `FORMAT` fields) -/

/-- Modelled from the spec: the prefix of a character list up to and
including the last slash (empty when there is no slash); kernel of
`UnixExtractFilePath`, which is provided by a unit not among the sources. -/
def lastSlashPrefix : List Char → List Char
  | [] => []
  | c :: rest =>
    let t := lastSlashPrefix rest
    if t.isEmpty then (if c = '/' then [c] else []) else c :: t

/-- Modelled from the spec: `UnixExtractFilePath` — directory part of a
slash-separated path, including the trailing slash. -/
def unixExtractFilePath (s : String) : String :=
  String.mk (lastSlashPrefix s.data)

/-- Modelled from the spec: `UnixIncludeTrailingBackslash` — append a slash
unless the path already ends with one. -/
def unixIncludeTrailingBackslash (s : String) : String :=
  if s.data.getLast? = some '/' then s else s ++ "/"

/-- Modelled from the spec: `IncludeTrailingBackslash` — the local
(backslash) counterpart. -/
def includeTrailingBackslash (s : String) : String :=
  if s.data.getLast? = some '\\' then s else s ++ "\\"

/-- Modelled from the spec: `UnixComparePaths` — path equality up to a
trailing slash. -/
def unixComparePaths (a b : String) : Bool :=
  unixIncludeTrailingBackslash a == unixIncludeTrailingBackslash b

/-- Zero-padded decimal rendering, as produced by the `%0Nd` fields of
`FORMAT` in `TTerminal::RecycleFile`. -/
def padNum (w n : Nat) : String :=
  let s := toString n
  String.mk (List.replicate (w - s.length) '0') ++ s

/-- Case-insensitive key used by the local file list of the synchronize
collector (`Data.LocalFileList->CaseSensitive = false`). -/
def nameKey (s : String) : String :=
  String.mk (s.data.map Char.toLower)

/-! ## Overwrite confirmation (`TTerminal::EffectiveBatchOverwrite`,
`TTerminal::ConfirmFileOverwrite`) -/

/-- Query answers exchanged with the user interface (`qa*` constants). -/
inductive QAnswer where
  | qaYes
  | qaNo
  | qaCancel
  | qaRetry
  | qaAbort
  | qaAll
  | qaNoToAll
  | qaYesToAll
  | qaSkip
  | qaNeverAskAgain
deriving DecidableEq

/-- `TBatchOverwrite`. -/
inductive TBatchOverwrite where
  | boNo
  | boAll
  | boNone
  | boOlder
  | boAlternateResume
  | boAppend
  | boResume
deriving DecidableEq

/-- The `cp*` bits of the `Params` argument consulted by
`EffectiveBatchOverwrite`. -/
structure CopyFlags where
  cpResume : Bool := false
  cpAppend : Bool := false
  cpNewerOnly : Bool := false
  cpNoConfirmation : Bool := false
deriving DecidableEq

/-- `TOverwriteFileParams` (constructor defaults as in `Terminal.cpp`). -/
structure OverwriteFileParams where
  sourceSize : Int := 0
  destSize : Int := 0
  sourceTimestamp : Nat := 0
  destTimestamp : Nat := 0
  sourcePrecision : ModFmt := .mfFull
  destPrecision : ModFmt := .mfFull
deriving DecidableEq

/-- The slice of `TFileOperationProgressType` consulted here. -/
structure ProgressState where
  batchOverwrite : TBatchOverwrite := .boNo
  skipToAll : Bool := false
  asciiTransfer : Bool := false
deriving DecidableEq

/-- `TTerminal::EffectiveBatchOverwrite`. -/
def effectiveBatchOverwrite (params : CopyFlags) (progressBatch : TBatchOverwrite)
    (confirmOverwriting : Bool) (special : Bool) : TBatchOverwrite :=
  if special && params.cpResume then .boResume
  else if params.cpAppend then .boAppend
  else if params.cpNewerOnly then .boOlder
  else if params.cpNoConfirmation || !confirmOverwriting then .boAll
  else
    if !special &&
        (progressBatch == .boOlder || progressBatch == .boAlternateResume ||
         progressBatch == .boResume) then
      .boNo
    else progressBatch

/-- The `boOlder` leg of the final `switch` in `ConfirmFileOverwrite`:
yes iff the source timestamp, reduced to the lesser of the two precisions,
is strictly newer than the equally reduced destination timestamp. -/
def olderAnswer (fileParams : Option OverwriteFileParams) : QAnswer :=
  match fileParams with
  | some p =>
    if 0 <
        compareFileTime
          (reduceDateTimePrecision p.sourceTimestamp
            (lessDateTimePrecision p.sourcePrecision p.destPrecision))
          (reduceDateTimePrecision p.destTimestamp
            (lessDateTimePrecision p.sourcePrecision p.destPrecision)) then
      .qaYes
    else .qaNo
  | none => .qaNo

/-- The final `switch (BatchOverwrite)` of `ConfirmFileOverwrite`;
`fallback` is the answer already in hand when the mode is `boNo`. -/
def batchAnswer (b : TBatchOverwrite) (fileParams : Option OverwriteFileParams)
    (fallback : QAnswer) : QAnswer :=
  match b with
  | .boNo => fallback
  | .boAll => .qaYes
  | .boNone => .qaNo
  | .boOlder => olderAnswer fileParams
  | .boAlternateResume => .qaSkip
  | .boAppend => .qaRetry
  | .boResume => .qaRetry

/-- The batch mode after the applicability check at the top of
`ConfirmFileOverwrite` (the special mode degrades to the non-special one
when it cannot be applied to the current transfer). -/
def batchAfterApplicability (params : CopyFlags) (progress : ProgressState)
    (confirmOverwriting : Bool) (fileParams : Option OverwriteFileParams) :
    TBatchOverwrite :=
  let canAlternateResume :=
    match fileParams with
    | some fp => decide (fp.destSize < fp.sourceSize) && !progress.asciiTransfer
    | none => false
  let b := effectiveBatchOverwrite params progress.batchOverwrite confirmOverwriting true
  let applicable :=
    match b with
    | .boOlder => fileParams.isSome
    | .boAlternateResume => canAlternateResume
    | .boResume => canAlternateResume
    | _ => true
  if applicable then b
  else effectiveBatchOverwrite params progress.batchOverwrite confirmOverwriting false

/-- Result of `ConfirmFileOverwrite`: the canonical answer, the progress
object's batch mode afterwards, the global confirm-overwriting
configuration afterwards, and whether the user was prompted. -/
structure ConfirmResult where
  answer : QAnswer
  progressBatch : TBatchOverwrite
  confirmOverwriting : Bool
  prompted : Bool
deriving DecidableEq

/-- `TTerminal::ConfirmFileOverwrite`.  `userAnswer` stands for the value
`QueryUser` would return were the user prompted. -/
def confirmFileOverwrite (params : CopyFlags) (progress : ProgressState)
    (confirmOverwriting : Bool) (fileParams : Option OverwriteFileParams)
    (userAnswer : QAnswer) : ConfirmResult :=
  let b0 := batchAfterApplicability params progress confirmOverwriting fileParams
  if b0 = .boNo then
    let r := userAnswer
    let confirm2 := if r = .qaNeverAskAgain then false else confirmOverwriting
    let r2 := if r = .qaNeverAskAgain then QAnswer.qaYes else r
    let b1 : TBatchOverwrite :=
      match r with
      | .qaYesToAll => .boAll
      | .qaAll => .boOlder
      | .qaNoToAll => .boNone
      | _ => .boNo
    let progressBatch2 := if b1 ≠ .boNo then b1 else progress.batchOverwrite
    { answer := batchAnswer b1 fileParams r2,
      progressBatch := progressBatch2,
      confirmOverwriting := confirm2,
      prompted := true }
  else
    { answer := batchAnswer b0 fileParams userAnswer,
      progressBatch := progress.batchOverwrite,
      confirmOverwriting := confirmOverwriting,
      prompted := false }

/-! ## Retry loop (`TTerminal::FileOperationLoopQuery`) -/

/-- How one round of the file-operation retry loop ends. -/
inductive LoopOutcome where
  | retryNormal
  | retrySpecial
  | skipFileThrown
  | extThrown
deriving DecidableEq

/-- Observable result of `FileOperationLoopQuery`. -/
structure LoopQueryResult where
  outcome : LoopOutcome
  prompted : Bool
  skipToAll : Bool
  cancelled : Bool
deriving DecidableEq

/-- The tail of `FileOperationLoopQuery` after the answer is fixed: a
non-retry answer records cancellation on abort and raises the typed
skip-file exception (or a plain extended exception when skipping is not
allowed). -/
def finishLoopQuery (allowSkip skipToAll special : Bool) (answer : QAnswer)
    (prompted : Bool) : LoopQueryResult :=
  if answer ≠ QAnswer.qaRetry then
    { outcome := if allowSkip then .skipFileThrown else .extThrown,
      prompted := prompted,
      skipToAll := skipToAll,
      cancelled := answer = QAnswer.qaAbort }
  else
    { outcome := if special then .retrySpecial else .retryNormal,
      prompted := prompted,
      skipToAll := skipToAll,
      cancelled := false }

/-- `TTerminal::FileOperationLoopQuery`.  `userAnswer` stands for the value
`QueryUserException` would return were the user prompted (the `SpecialRetry`
alias being offered is immaterial to the data flow and is not modelled). -/
def fileOperationLoopQuery (allowSkip skipToAll : Bool) (userAnswer : QAnswer) :
    LoopQueryResult :=
  if allowSkip && skipToAll then
    finishLoopQuery allowSkip skipToAll false QAnswer.qaSkip false
  else
    let answer := userAnswer
    let skipToAll2 := if answer = QAnswer.qaAll then true else skipToAll
    let answer2 := if answer = QAnswer.qaAll then QAnswer.qaSkip else answer
    let special := answer2 = QAnswer.qaYes
    let answer3 := if answer2 = QAnswer.qaYes then QAnswer.qaRetry else answer2
    finishLoopQuery allowSkip skipToAll2 (decide special) answer3 true

/-! ## Transaction manager and react-on-command
(`TTerminal::BeginTransaction`, `TTerminal::EndTransaction`,
`TTerminal::ReactOnCommand`) -/

/-- Backend command tags (`TFSCommand`) distinguished by `ReactOnCommand`;
`fsOther` stands for every tag that hits neither `switch` branch. -/
inductive FSCommand where
  | fsChangeDirectory
  | fsHomeDirectory
  | fsCopyToRemote
  | fsDeleteFile
  | fsRenameFile
  | fsMoveFile
  | fsCopyFile
  | fsCreateDirectory
  | fsChangeMode
  | fsChangeGroup
  | fsChangeOwner
  | fsChangeProperties
  | fsAnyCommand
  | fsOther
deriving DecidableEq

/-- The slice of `TTerminal` state driving transactions and deferred
reloads (`FInTransaction`, `FSuspendTransaction`,
`FReadCurrentDirectoryPending`, `FReadDirectoryPending`, `GetActive`,
`GetAutoReadDirectory`, `Configuration->GetAutoReadDirectoryAfterOp`). -/
structure TermState where
  inTransaction : Nat := 0
  suspendTransaction : Bool := false
  readCurrentDirectoryPending : Bool := false
  readDirectoryPending : Bool := false
  active : Bool := true
  autoReadDirectory : Bool := true
  autoReadDirectoryAfterOp : Bool := true
deriving DecidableEq

/-- Network round-trips issued for reloads. -/
inductive ReadEvent where
  | readCurrentDirectory
  | readDirectory (reloadOnly : Bool)
deriving DecidableEq

/-- `TTerminal::InTransaction`. -/
def inTransactionB (s : TermState) : Bool :=
  decide (0 < s.inTransaction) && !s.suspendTransaction

/-- `TTerminal::BeginTransaction` (the mirroring into the secondary shell
session is not modelled). -/
def beginTransaction (s : TermState) : TermState :=
  let s1 :=
    if s.inTransaction = 0 then
      { s with readCurrentDirectoryPending := false, readDirectoryPending := false }
    else s
  { s1 with inTransaction := s1.inTransaction + 1 }

/-- The `ChangesDirectory` classification in `ReactOnCommand`. -/
def commandChangesDirectory : FSCommand → Bool
  | .fsChangeDirectory | .fsHomeDirectory | .fsAnyCommand => true
  | _ => false

/-- The `ModifiesFiles` classification in `ReactOnCommand`. -/
def commandModifiesFiles : FSCommand → Bool
  | .fsCopyToRemote | .fsDeleteFile | .fsRenameFile | .fsMoveFile
  | .fsCopyFile | .fsCreateDirectory | .fsChangeMode | .fsChangeGroup
  | .fsChangeOwner | .fsChangeProperties | .fsAnyCommand => true
  | _ => false

/-- `TTerminal::ReactOnCommand`: the state afterwards together with the
reread round-trips issued immediately. -/
def reactOnCommand (s : TermState) (cmd : FSCommand) : TermState × List ReadEvent :=
  if commandChangesDirectory cmd then
    if inTransactionB s then
      ({ s with readCurrentDirectoryPending := true,
                readDirectoryPending := s.readDirectoryPending || s.autoReadDirectory }, [])
    else
      (s, ReadEvent.readCurrentDirectory ::
        (if s.autoReadDirectory then [ReadEvent.readDirectory false] else []))
  else if commandModifiesFiles cmd && s.autoReadDirectory && s.autoReadDirectoryAfterOp then
    if inTransactionB s then
      ({ s with readDirectoryPending := true }, [])
    else
      (s, [ReadEvent.readDirectory true])
  else (s, [])

/-- Classifier for current-directory rereads. -/
def ReadEvent.isCwdRead : ReadEvent → Bool
  | .readCurrentDirectory => true
  | .readDirectory _ => false

/-- Classifier for directory rereads. -/
def ReadEvent.isDirRead : ReadEvent → Bool
  | .readCurrentDirectory => false
  | .readDirectory _ => true

/-- Outcome tag of `EndTransaction`. -/
inductive EndTxResult where
  | ok
  | errNotInTransaction
  | errReadFailed
deriving DecidableEq

/-- `TTerminal::EndTransaction`: state afterwards, reread round-trips
issued, and outcome.  `cwdFails` and `dirFails` say whether the
corresponding reread would raise; the `TRY_FINALLY` guard resets both
pending flags even then.  At nesting level zero the call raises a terminal
error before touching the counter. -/
def endTransaction (s : TermState) (cwdFails dirFails : Bool) :
    TermState × List ReadEvent × EndTxResult :=
  if s.inTransaction = 0 then (s, [], .errNotInTransaction)
  else
    let s1 := { s with inTransaction := s.inTransaction - 1 }
    if s1.active = true ∧ s1.inTransaction = 0 then
      let reset :=
        { s1 with readCurrentDirectoryPending := false, readDirectoryPending := false }
      let ev1 : List ReadEvent :=
        if s1.readCurrentDirectoryPending then [ReadEvent.readCurrentDirectory] else []
      if s1.readCurrentDirectoryPending && cwdFails then
        (reset, ev1, .errReadFailed)
      else
        let ev2 : List ReadEvent :=
          if s1.readDirectoryPending then
            [ReadEvent.readDirectory (!s1.readCurrentDirectoryPending)]
          else []
        if s1.readDirectoryPending && dirFails then
          (reset, ev1 ++ ev2, .errReadFailed)
        else
          (reset, ev1 ++ ev2, .ok)
    else (s1, [], .ok)

/-! ## Delete to recycle bin (`TTerminal::IsRecycledFile`,
`TTerminal::RecycleFile`, `TTerminal::DeleteFile`) -/

/-- The `df*` bits of the `Params` argument of `DeleteFile`. -/
structure RmParams where
  dfAlternative : Bool := false
  dfForceDelete : Bool := false
deriving DecidableEq

/-- The recycle-bin slice of the session descriptor
(`GetDeleteToRecycleBin`, `GetRecycleBinPath`). -/
structure FsPolicy where
  deleteToRecycleBin : Bool := false
  recycleBinPath : String := ""
deriving DecidableEq

/-- A broken-down current time (`Now()` decoded by `DecodeDate` and
`DecodeTime` in `RecycleFile`). -/
structure DateTimeNow where
  year : Nat
  month : Nat
  day : Nat
  hour : Nat
  minute : Nat
  second : Nat
deriving DecidableEq

/-- The file mask `*-YYYYMMDD-HHMMSS.*` built by `RecycleFile`. -/
def recycleFileMask (now : DateTimeNow) : String :=
  "*-" ++ padNum 4 now.year ++ padNum 2 now.month ++ padNum 2 now.day ++ "-" ++
    padNum 2 now.hour ++ padNum 2 now.minute ++ padNum 2 now.second ++ ".*"

/-- `TTerminal::IsRecycledFile`: the file's directory (falling back on the
current directory for a bare name) equals the configured recycle path. -/
def isRecycledFile (recycleBinPath currentDirectory fileName : String) : Bool :=
  !recycleBinPath.isEmpty &&
    (let path := unixExtractFilePath fileName
     let path2 := if path.isEmpty then currentDirectory else path
     unixComparePaths path2 recycleBinPath)

/-- How `DeleteFile` disposes of the target: a move into the recycle path
under a timestamped mask, or a hard delete through the backend. -/
inductive DeleteDisposition where
  | movedToRecycleBin (target : String) (fileMask : String)
  | hardDeleted
deriving DecidableEq

/-- The dispatch in `TTerminal::DeleteFile` combined with
`TTerminal::RecycleFile`: recycling applies when no force-delete is
requested, the descriptor's delete-to-recycle setting XOR the alternative
flag is on, the recycle path is non-empty, and the target is not already
recycled; otherwise the backend delete runs. -/
def deleteFileDisposition (sd : FsPolicy) (currentDirectory fileName : String)
    (params : RmParams) (now : DateTimeNow) : DeleteDisposition :=
  let recycle :=
    !params.dfForceDelete &&
    (sd.deleteToRecycleBin != params.dfAlternative) &&
    !sd.recycleBinPath.isEmpty
  if recycle && !isRecycledFile sd.recycleBinPath currentDirectory fileName then
    DeleteDisposition.movedToRecycleBin sd.recycleBinPath (recycleFileMask now)
  else .hardDeleted

/-! ## Tunnel bring-up (`TTerminal::OpenTunnel`) -/

/-- The slice of the session descriptor consulted by `OpenTunnel`. -/
structure TunnelSessionData where
  hostName : String := ""
  portNumber : Nat := 0
  tunnelLocalPortNumber : Nat := 0
  tunnelHostName : String := ""
  tunnelPortNumber : Nat := 0
  tunnelUserName : String := ""
  tunnelPassword : String := ""
  tunnelPublicKeyFile : String := ""
deriving DecidableEq

/-- `Configuration->GetTunnelLocalPortNumberLow/High`. -/
structure TunnelConfig where
  tunnelLocalPortNumberLow : Nat
  tunnelLocalPortNumberHigh : Nat
deriving DecidableEq

/-- The port-scan loop of `OpenTunnel`: starting at `p`, advance while the
loopback listener is not free, failing once the counter passes `hi`.
`free` stands for `IsListenerFree`. -/
def findFreePort (free : Nat → Bool) (hi : Nat) (p : Nat) : Option Nat :=
  if free p then some p
  else if hi < p + 1 then none
  else findFreePort free hi (p + 1)
termination_by hi + 1 - p
decreasing_by
  simp_wf
  omega

/-- The forked tunnel sub-descriptor (`FTunnelData`), restricted to the
fields the tunnel claims speak about. -/
structure TunnelData where
  hostName : String
  portNumber : Nat
  userName : String
  password : String
  publicKeyFile : String
  tunnelPortFwd : String
deriving DecidableEq

/-- The port-forward directive `L<port>\t<realhost>:<realport>` installed
by `OpenTunnel`. -/
def tunnelPortFwdString (localPort : Nat) (realHost : String) (realPort : Nat) : String :=
  "L" ++ toString localPort ++ "\t" ++ realHost ++ ":" ++ toString realPort

/-- The local-port selection of `OpenTunnel`: the descriptor's non-zero
override, else the scan over the configured range; `none` stands for the
fatal `TUNNEL_NO_FREE_PORT` error. -/
def openTunnelPort (sd : TunnelSessionData) (cfg : TunnelConfig)
    (free : Nat → Bool) : Option Nat :=
  if sd.tunnelLocalPortNumber ≠ 0 then some sd.tunnelLocalPortNumber
  else findFreePort free cfg.tunnelLocalPortNumberHigh cfg.tunnelLocalPortNumberLow

/-- The sub-descriptor `OpenTunnel` forks for the chosen local port:
tunnel credentials and public key are cloned, and the port-forward
directive is installed. -/
def forkTunnelData (sd : TunnelSessionData) (p : Nat) : TunnelData :=
  { hostName := sd.tunnelHostName,
    portNumber := sd.tunnelPortNumber,
    userName := sd.tunnelUserName,
    password := sd.tunnelPassword,
    publicKeyFile := sd.tunnelPublicKeyFile,
    tunnelPortFwd := tunnelPortFwdString p sd.hostName sd.portNumber }

/-- `TTerminal::OpenTunnel`: the chosen local port and the forked
sub-descriptor, or the fatal no-free-port error. -/
def openTunnel (sd : TunnelSessionData) (cfg : TunnelConfig)
    (free : Nat → Bool) : Option (Nat × TunnelData) :=
  match openTunnelPort sd cfg free with
  | none => none
  | some p => some (p, forkTunnelData sd p)

/-! ## Synchronization engine — collect phase
(`TTerminal::SynchronizeCollect`, `TTerminal::DoSynchronizeCollectDirectory`,
`TTerminal::SynchronizeCollectFile`) -/

/-- `TSynchronizeChecklist::TAction`. -/
inductive SyncAction where
  | saNone
  | saUploadNew
  | saDownloadNew
  | saUploadUpdate
  | saDownloadUpdate
  | saDeleteRemote
  | saDeleteLocal
deriving DecidableEq

/-- `TSynchronizeChecklist::TItem::TFileInfo` (constructor defaults as in
`Terminal.cpp`). -/
structure SyncFileInfo where
  fileName : String := ""
  directory : String := ""
  modification : Nat := 0
  modificationFmt : ModFmt := .mfFull
  size : Int := 0
deriving DecidableEq

/-- `TSynchronizeChecklist::TItem` (constructor defaults as in
`Terminal.cpp`; the owned `TRemoteFile` handle and the image index are
not modelled). -/
structure ChecklistItem where
  isDirectory : Bool := false
  localInfo : SyncFileInfo := {}
  remoteInfo : SyncFileInfo := {}
  action : SyncAction := .saNone
  checked : Bool := true
deriving DecidableEq

/-- `TTerminal::TSynchronizeMode`. -/
inductive SyncMode where
  | smRemote
  | smBoth
  | smLocal
deriving DecidableEq

/-- The `sp*` bits of the synchronize `Params` bitset. -/
structure SyncParams where
  spDelete : Bool := false
  spNoConfirmation : Bool := false
  spExistingOnly : Bool := false
  spNoRecurse : Bool := false
  spUseCache : Bool := false
  spDelayProgress : Bool := false
  spSubDirs : Bool := false
  spTimestamp : Bool := false
  spNotByTime : Bool := false
  spBySize : Bool := false
  spMirror : Bool := false
deriving DecidableEq

/-- A local directory tree as seen through `FindFirst`/`FindNext`: every
entry carries the size and last-write time reported by the search record. -/
inductive LocalTree where
  | file (size : Int) (mtime : Nat)
  | dir (size : Int) (mtime : Nat) (entries : List (String × LocalTree))

/-- A remote directory tree as delivered by `ProcessDirectory`: every entry
carries size, modification and modification format of its `TRemoteFile`. -/
inductive RemoteTree where
  | file (size : Int) (mtime : Nat) (fmt : ModFmt)
  | dir (size : Int) (mtime : Nat) (fmt : ModFmt) (entries : List (String × RemoteTree))

def LocalTree.entrySize : LocalTree → Int
  | .file s _ => s
  | .dir s _ _ => s

def LocalTree.entryMtime : LocalTree → Nat
  | .file _ m => m
  | .dir _ m _ => m

def LocalTree.isDir : LocalTree → Bool
  | .file _ _ => false
  | .dir _ _ _ => true

def LocalTree.entries : LocalTree → List (String × LocalTree)
  | .file _ _ => []
  | .dir _ _ es => es

def RemoteTree.entrySize : RemoteTree → Int
  | .file s _ _ => s
  | .dir s _ _ _ => s

def RemoteTree.entryMtime : RemoteTree → Nat
  | .file _ m _ => m
  | .dir _ m _ _ => m

def RemoteTree.entryFmt : RemoteTree → ModFmt
  | .file _ _ f => f
  | .dir _ _ f _ => f

def RemoteTree.isDir : RemoteTree → Bool
  | .file _ _ _ => false
  | .dir _ _ _ _ => true

def RemoteTree.entries : RemoteTree → List (String × RemoteTree)
  | .file _ _ _ => []
  | .dir _ _ _ es => es

/-- The ambient hooks the collector consults: the copy-param transfer mask
(`AllowTransfer`), the backend's temporary-transfer-file test, the optional
first-level filter (`TSynchronizeOptions::MatchesFilter`, absent when
`Options == NULL`), and the copy-param file-name rewriting in each
direction (`ChangeFileName`). -/
structure SyncEnv where
  allowTransferLocal : String → Bool → Int → Nat → Bool
  allowTransferRemote : String → Bool → Int → Nat → Bool
  temporaryFile : String → Bool
  filterMatch : Option (String → Bool)
  toRemoteName : String → String
  toLocalName : String → String

/-- `TSynchronizeFileData`: one surviving local entry recorded during the
local enumeration pass.  `subtree` stands for the directory contents the
recursive call would re-enumerate from the path. -/
structure SyncFileData where
  isDirectory : Bool
  info : SyncFileInfo
  isNew : Bool
  modified : Bool
  matchingRemote : SyncFileInfo := {}
  subtree : LocalTree

/-- Lookup in the case-insensitive local file list
(`Data.LocalFileList->IndexOf`). -/
def lookupLocal (llist : List SyncFileData) (key : String) : Option SyncFileData :=
  llist.find? (fun fd => nameKey fd.info.fileName == nameKey key)

/-- In-place update of the entry found by `lookupLocal`. -/
def updateLocal (llist : List SyncFileData) (key : String)
    (f : SyncFileData → SyncFileData) : List SyncFileData :=
  llist.map (fun fd => if nameKey fd.info.fileName == nameKey key then f fd else fd)

/-- The local enumeration pass of `DoSynchronizeCollectDirectory`: admit an
entry when the copy-param mask allows it, it is no temporary transfer file,
and (at the first level only) the optional filter matches the local or the
rewritten remote name; record it as new and unmodified with full-precision
modification time. -/
def buildLocalList (env : SyncEnv) (firstLevel : Bool) (ldir : String)
    (lentries : List (String × LocalTree)) : List SyncFileData :=
  lentries.filterMap (fun pair =>
    let name := pair.1
    let t := pair.2
    let size := t.entrySize
    let mtime := t.entryMtime
    let remoteName := env.toRemoteName name
    let fullLocalName := ldir ++ name
    if (name != ".") && (name != "..") &&
        env.allowTransferLocal fullLocalName t.isDir size mtime &&
        !env.temporaryFile name &&
        (!firstLevel ||
          (match env.filterMatch with
           | none => true
           | some f => f name || f remoteName)) then
      some { isDirectory := t.isDir,
             info := { fileName := name, directory := ldir, modification := mtime,
                       modificationFmt := .mfFull, size := size },
             isNew := true, modified := false, subtree := t }
    else none)

/-- The `New || Modified` emission block at the end of
`SynchronizeCollectFile`: decorate the prepared item with action and
checked flag according to the mode, and add it only when an action was
assigned. -/
def emitRemoteItem (mode : SyncMode) (params : SyncParams) (item0 : ChecklistItem)
    (isNew modified : Bool) : List ChecklistItem :=
  if isNew || modified then
    let withAct :=
      if mode == .smBoth || mode == .smLocal then
        if !params.spTimestamp || modified then
          { item0 with
            action := if modified then SyncAction.saDownloadUpdate else SyncAction.saDownloadNew,
            checked := (modified || !params.spExistingOnly) &&
              (!item0.isDirectory || !params.spNoRecurse || params.spSubDirs) }
        else item0
      else if mode == .smRemote && isNew then
        if !params.spTimestamp then
          { item0 with
            action := SyncAction.saDeleteRemote,
            checked := params.spDelete &&
              (!item0.isDirectory || !params.spNoRecurse || params.spSubDirs) }
        else item0
      else item0
    if withAct.action ≠ .saNone then [withAct] else []
  else []

/-- The time-and-size comparison of `SynchronizeCollectFile` for a file
present on both sides, returning the pair (remote side modified, local
side modified). -/
def compareFileSides (mode : SyncMode) (params : SyncParams)
    (localInfo : SyncFileInfo) (size : Int) (mtime : Nat) : Bool × Bool :=
  let timeCompare : Int :=
    if !params.spNotByTime &&
        (!params.spTimestamp || !params.spBySize || localInfo.size == size) then
      compareFileTime localInfo.modification mtime
    else 0
  if timeCompare < 0 then
    if (!params.spTimestamp && !params.spMirror) ||
        mode == .smBoth || mode == .smLocal then (true, false)
    else (false, true)
  else if 0 < timeCompare then
    if (!params.spTimestamp && !params.spMirror) ||
        mode == .smBoth || mode == .smRemote then (false, true)
    else (true, false)
  else if params.spBySize && localInfo.size != size && !params.spTimestamp then
    (true, true)
  else (false, false)

/-- `TTerminal::SynchronizeCollectFile` for one remote entry: the updated
local file list and the checklist items added while processing it.  `sub`
stands for the recursive `DoSynchronizeCollectDirectory` call made for a
directory present on both sides. -/
def collectOne (env : SyncEnv) (mode : SyncMode) (params : SyncParams)
    (sub : String → String → List (String × LocalTree) → List (String × RemoteTree) →
      List ChecklistItem)
    (firstLevel : Bool) (ldir rdir : String)
    (llist : List SyncFileData) (name : String) (rt : RemoteTree) :
    List SyncFileData × List ChecklistItem :=
  let size := rt.entrySize
  let mtime := rt.entryMtime
  let fmt := rt.entryFmt
  let isDir := rt.isDir
  let localName := env.toLocalName name
  let fullRemoteName := rdir ++ name
  if env.allowTransferRemote fullRemoteName isDir size mtime &&
      !env.temporaryFile name &&
      (!firstLevel ||
        (match env.filterMatch with
         | none => true
         | some f => f name || f localName)) then
    let remoteInfo : SyncFileInfo :=
      { fileName := name, directory := rdir, modification := mtime,
        modificationFmt := fmt, size := size }
    match lookupLocal llist localName with
    | none =>
      let item0 : ChecklistItem :=
        { isDirectory := isDir, localInfo := { directory := ldir },
          remoteInfo := remoteInfo }
      (llist, emitRemoteItem mode params item0 true false)
    | some localData =>
      let llist1 := updateLocal llist localName (fun fd => { fd with isNew := false })
      if isDir != localData.isDirectory then
        (llist1, [])
      else if !isDir then
        let localInfo :=
          { localData.info with
            modification := reduceDateTimePrecision localData.info.modification fmt }
        let ml := compareFileSides mode params localInfo size mtime
        let llist2 :=
          if ml.2 then
            updateLocal llist1 localName
              (fun fd => { fd with modified := true, matchingRemote := remoteInfo })
          else llist1
        let item0 : ChecklistItem :=
          { isDirectory := isDir, localInfo := localInfo, remoteInfo := remoteInfo }
        (llist2, emitRemoteItem mode params item0 false ml.1)
      else
        if !params.spNoRecurse then
          (llist1, sub (ldir ++ localData.info.fileName) (rdir ++ name)
            localData.subtree.entries rt.entries)
        else (llist1, [])
  else (llist, [])

/-- The walk over the remote listing (`ProcessDirectory` feeding
`SynchronizeCollectFile`), threading the local file list. -/
def collectRemoteEntries (env : SyncEnv) (mode : SyncMode) (params : SyncParams)
    (sub : String → String → List (String × LocalTree) → List (String × RemoteTree) →
      List ChecklistItem)
    (firstLevel : Bool) (ldir rdir : String) :
    List SyncFileData → List (String × RemoteTree) →
    List SyncFileData × List ChecklistItem
  | llist, [] => (llist, [])
  | llist, (name, rt) :: rest =>
    let r1 := collectOne env mode params sub firstLevel ldir rdir llist name rt
    let r2 := collectRemoteEntries env mode params sub firstLevel ldir rdir r1.1 rest
    (r2.1, r1.2 ++ r2.2)

/-- The second pass of `DoSynchronizeCollectDirectory` over the local file
list: emit upload or delete-local items for entries still new or marked
modified. -/
def phaseCItem (mode : SyncMode) (params : SyncParams) (rdir : String)
    (fd : SyncFileData) : List ChecklistItem :=
  let modified := fd.modified && (mode == .smBoth || mode == .smRemote)
  let isNew := fd.isNew &&
    (mode == .smLocal || ((mode == .smBoth || mode == .smRemote) && !params.spTimestamp))
  if modified || isNew then
    let item0 : ChecklistItem :=
      { isDirectory := fd.isDirectory,
        localInfo := fd.info,
        remoteInfo := if modified then fd.matchingRemote else { directory := rdir } }
    let withAct :=
      if mode == .smBoth || mode == .smRemote then
        { item0 with
          action := if modified then SyncAction.saUploadUpdate else SyncAction.saUploadNew,
          checked := (modified || !params.spExistingOnly) &&
            (!item0.isDirectory || !params.spNoRecurse || params.spSubDirs) }
      else if mode == .smLocal && !params.spTimestamp then
        { item0 with
          action := SyncAction.saDeleteLocal,
          checked := params.spDelete &&
            (!item0.isDirectory || !params.spNoRecurse || params.spSubDirs) }
      else item0
    if withAct.action ≠ .saNone then [withAct] else []
  else []

/-- The body of `DoSynchronizeCollectDirectory` for one directory pair:
normalize the two directory paths, run the local enumeration, walk the
remote listing, then run the second local pass. -/
def collectDirBody (env : SyncEnv) (mode : SyncMode) (params : SyncParams)
    (sub : String → String → List (String × LocalTree) → List (String × RemoteTree) →
      List ChecklistItem)
    (firstLevel : Bool) (ldir0 rdir0 : String)
    (lentries : List (String × LocalTree)) (rentries : List (String × RemoteTree)) :
    List ChecklistItem :=
  let ldir := includeTrailingBackslash ldir0
  let rdir := unixIncludeTrailingBackslash rdir0
  let llist := buildLocalList env firstLevel ldir lentries
  let r := collectRemoteEntries env mode params sub firstLevel ldir rdir llist rentries
  r.2 ++ (r.1.map (phaseCItem mode params rdir)).flatten

/-- `TTerminal::DoSynchronizeCollectDirectory`, recursion bounded by a
fuel argument (any fuel at least the tree depth is exact; fuel zero yields
the empty checklist). -/
def collectDir (env : SyncEnv) (mode : SyncMode) (params : SyncParams) :
    Nat → Bool → String → String → List (String × LocalTree) →
    List (String × RemoteTree) → List ChecklistItem
  | 0 => fun _ _ _ _ _ => []
  | fuel + 1 => fun firstLevel ldir rdir lentries rentries =>
    collectDirBody env mode params
      (fun ld rd les res => collectDir env mode params fuel false ld rd les res)
      firstLevel ldir rdir lentries rentries

/-! ## Synchronization engine — apply phase (`TTerminal::SynchronizeApply`) -/

/-- One bulk call issued by the apply loop, carrying the file list passed
to it. -/
inductive BulkOp where
  | download (files : List String)
  | deleteRemote (files : List String)
  | upload (files : List String)
  | deleteLocal (files : List String)
  | setLocalTimestamps (files : List String)
  | setRemoteTimestamps (files : List String)
deriving DecidableEq

/-- Position of a bulk call in the fixed per-group order
download → delete-remote → upload → delete-local. -/
def BulkOp.rank : BulkOp → Nat
  | .download _ => 0
  | .deleteRemote _ => 1
  | .upload _ => 2
  | .deleteLocal _ => 3
  | .setLocalTimestamps _ => 4
  | .setRemoteTimestamps _ => 5

/-- Remote-side path of an item as put on the download and delete-remote
lists. -/
def downloadPathOf (it : ChecklistItem) : String :=
  unixIncludeTrailingBackslash it.remoteInfo.directory ++ it.remoteInfo.fileName

/-- Local-side path of an item as put on the upload and delete-local
lists. -/
def uploadPathOf (it : ChecklistItem) : String :=
  includeTrailingBackslash it.localInfo.directory ++ it.localInfo.fileName

/-- The grouping test of the inner `while` loop: same local directory and
same remote directory as the item that opened the group. -/
def sameGroup (a b : ChecklistItem) : Bool :=
  (b.localInfo.directory == a.localInfo.directory) &&
  (b.remoteInfo.directory == a.remoteInfo.directory)

/-- The download bucket of one group (checked items only; in
timestamp-only mode only download-updates belong to it). -/
def groupDownloadList (tsMode : Bool) (grp : List ChecklistItem) : List String :=
  (grp.filter (fun it => it.checked &&
    (if tsMode then it.action == SyncAction.saDownloadUpdate
     else it.action == SyncAction.saDownloadNew ||
          it.action == SyncAction.saDownloadUpdate))).map downloadPathOf

/-- The upload bucket of one group. -/
def groupUploadList (tsMode : Bool) (grp : List ChecklistItem) : List String :=
  (grp.filter (fun it => it.checked &&
    (if tsMode then it.action == SyncAction.saUploadUpdate
     else it.action == SyncAction.saUploadNew ||
          it.action == SyncAction.saUploadUpdate))).map uploadPathOf

/-- The delete-remote bucket of one group. -/
def groupDeleteRemoteList (grp : List ChecklistItem) : List String :=
  (grp.filter (fun it => it.checked && it.action == SyncAction.saDeleteRemote)).map
    downloadPathOf

/-- The delete-local bucket of one group. -/
def groupDeleteLocalList (grp : List ChecklistItem) : List String :=
  (grp.filter (fun it => it.checked && it.action == SyncAction.saDeleteLocal)).map
    uploadPathOf

/-- The bulk calls a group gives rise to, in program order; empty buckets
are skipped. -/
def groupOps (tsMode : Bool) (grp : List ChecklistItem) : List BulkOp :=
  if tsMode then
    (if groupDownloadList true grp ≠ [] then
      [BulkOp.setLocalTimestamps (groupDownloadList true grp)] else []) ++
    (if groupUploadList true grp ≠ [] then
      [BulkOp.setRemoteTimestamps (groupUploadList true grp)] else [])
  else
    (if groupDownloadList false grp ≠ [] then
      [BulkOp.download (groupDownloadList false grp)] else []) ++
    (if groupDeleteRemoteList grp ≠ [] then
      [BulkOp.deleteRemote (groupDeleteRemoteList grp)] else []) ++
    (if groupUploadList false grp ≠ [] then
      [BulkOp.upload (groupUploadList false grp)] else []) ++
    (if groupDeleteLocalList grp ≠ [] then
      [BulkOp.deleteLocal (groupDeleteLocalList grp)] else [])

/-- Issue the bulk calls in order; a call whose result is cancelled
(`bulkOk` false) raises `Abort()`, so nothing after it runs. -/
def runOps (bulkOk : BulkOp → Bool) : List BulkOp → List BulkOp × Bool
  | [] => ([], true)
  | op :: rest =>
    if bulkOk op then
      let r := runOps bulkOk rest
      (op :: r.1, r.2)
    else ([op], false)

/-- One group of `SynchronizeApply`: nothing runs when the group has no
checked item; in timestamp-only mode the two `ProcessFiles` calls run
without their outcome being consulted; otherwise the four bulk calls run
in order with abort on a cancelled one. -/
def runGroup (bulkOk : BulkOp → Bool) (tsMode : Bool) (grp : List ChecklistItem) :
    List BulkOp × Bool :=
  if grp.countP (fun it => it.checked) = 0 then ([], true)
  else if tsMode then (groupOps true grp, true)
  else runOps bulkOk (groupOps false grp)

/-- The outer loop of `SynchronizeApply` over consecutive
(local-directory, remote-directory) groups; each bulk call is tagged with
the ordinal of its group.  The second component is false when a cancelled
bulk aborted the whole apply. -/
def synchronizeApplyAux (bulkOk : BulkOp → Bool) (tsMode : Bool) :
    List ChecklistItem → Nat → List (Nat × BulkOp) × Bool
  | [], _ => ([], true)
  | it :: rest, g =>
    if (runGroup bulkOk tsMode (it :: rest.takeWhile (sameGroup it))).2 then
      ((runGroup bulkOk tsMode (it :: rest.takeWhile (sameGroup it))).1.map
          (fun e => (g, e)) ++
        (synchronizeApplyAux bulkOk tsMode (rest.dropWhile (sameGroup it)) (g + 1)).1,
       (synchronizeApplyAux bulkOk tsMode (rest.dropWhile (sameGroup it)) (g + 1)).2)
    else
      ((runGroup bulkOk tsMode (it :: rest.takeWhile (sameGroup it))).1.map
        (fun e => (g, e)), false)
termination_by l _ => l.length
decreasing_by
  all_goals simp_wf
  all_goals have h := (List.dropWhile_sublist (p := sameGroup it) (l := rest)).length_le
  all_goals omega

/-- `TTerminal::SynchronizeApply` (the copy-param adjustment and progress
callbacks do not affect which bulk calls run, and are not modelled). -/
def synchronizeApply (bulkOk : BulkOp → Bool) (tsMode : Bool)
    (checklist : List ChecklistItem) : List (Nat × BulkOp) × Bool :=
  synchronizeApplyAux bulkOk tsMode checklist 0

/-- A synchronize environment with a fully permissive transfer mask, no
temporary-file names, no first-level filter and identity file-name
rewriting, used for concrete collector runs. -/
def plainSyncEnv : SyncEnv :=
  { allowTransferLocal := fun _ _ _ _ => true,
    allowTransferRemote := fun _ _ _ _ => true,
    temporaryFile := fun _ => false,
    filterMatch := none,
    toRemoteName := id,
    toLocalName := id }

/-! # Theorems -/

/-- C2: for every overwrite confirmation whose effective batch mode is
`older` and for every pair of source/destination file parameters,
`ConfirmFileOverwrite` answers Yes iff the source timestamp, reduced to the
lesser of the two precisions, is strictly newer than the equally reduced
destination timestamp, and No otherwise. -/
theorem confirmFileOverwrite_older_iff (params : CopyFlags) (progress : ProgressState)
    (confirm : Bool) (fp : OverwriteFileParams) (ua : QAnswer)
    (hb : effectiveBatchOverwrite params progress.batchOverwrite confirm true = .boOlder) :
    (confirmFileOverwrite params progress confirm (some fp) ua).answer =
      (if 0 < compareFileTime
          (reduceDateTimePrecision fp.sourceTimestamp
            (lessDateTimePrecision fp.sourcePrecision fp.destPrecision))
          (reduceDateTimePrecision fp.destTimestamp
            (lessDateTimePrecision fp.sourcePrecision fp.destPrecision))
        then QAnswer.qaYes else QAnswer.qaNo) := by
  simp [confirmFileOverwrite, batchAfterApplicability, hb, batchAnswer, olderAnswer]

theorem confirmFileOverwrite_older_iff_witness :
    (confirmFileOverwrite { cpNewerOnly := true } {} true
      (some { sourceTimestamp := 100, destTimestamp := 50 }) QAnswer.qaNo).answer =
      (if 0 < compareFileTime
          (reduceDateTimePrecision 100 (lessDateTimePrecision .mfFull .mfFull))
          (reduceDateTimePrecision 50 (lessDateTimePrecision .mfFull .mfFull))
        then QAnswer.qaYes else QAnswer.qaNo) :=
  confirmFileOverwrite_older_iff _ _ _ _ _ (by decide)

/-- C10: when `ConfirmFileOverwrite` actually prompts (effective batch mode
`no`) and the user answers Never-ask-again, overwrite confirmation is
disabled in the global configuration, the answer is Yes, and the progress
object's batch-overwrite mode is left unchanged. -/
theorem confirmFileOverwrite_neverAskAgain (params : CopyFlags)
    (progress : ProgressState) (confirm : Bool) (fp : Option OverwriteFileParams)
    (hb : batchAfterApplicability params progress confirm fp = .boNo) :
    confirmFileOverwrite params progress confirm fp QAnswer.qaNeverAskAgain =
      { answer := .qaYes, progressBatch := progress.batchOverwrite,
        confirmOverwriting := false, prompted := true } := by
  simp [confirmFileOverwrite, hb, batchAnswer]

theorem confirmFileOverwrite_neverAskAgain_witness :
    confirmFileOverwrite {} {} true none QAnswer.qaNeverAskAgain =
      { answer := .qaYes, progressBatch := TBatchOverwrite.boNo,
        confirmOverwriting := false, prompted := true } :=
  confirmFileOverwrite_neverAskAgain {} {} true none (by decide)

/-- C4: in the retry loop with skipping allowed, a set skip-to-all flag
produces the typed skip-file outcome without prompting; and a Skip-All
answer at the prompt sets skip-to-all and becomes a skip. -/
theorem fileOperationLoopQuery_skipAll (allowSkip skipToAll : Bool) (ua : QAnswer) :
    (allowSkip = true → skipToAll = true →
      fileOperationLoopQuery allowSkip skipToAll ua =
        { outcome := .skipFileThrown, prompted := false, skipToAll := true,
          cancelled := false })
    ∧ (allowSkip = true → skipToAll = false → ua = QAnswer.qaAll →
      fileOperationLoopQuery allowSkip skipToAll ua =
        { outcome := .skipFileThrown, prompted := true, skipToAll := true,
          cancelled := false }) := by
  constructor
  · rintro rfl rfl
    rfl
  · rintro rfl rfl rfl
    rfl

theorem fileOperationLoopQuery_skipAll_witness :
    (fileOperationLoopQuery true true QAnswer.qaRetry =
      { outcome := .skipFileThrown, prompted := false, skipToAll := true,
        cancelled := false })
    ∧ (fileOperationLoopQuery true false QAnswer.qaAll =
      { outcome := .skipFileThrown, prompted := true, skipToAll := true,
        cancelled := false }) :=
  ⟨(fileOperationLoopQuery_skipAll true true QAnswer.qaRetry).1 rfl rfl,
   (fileOperationLoopQuery_skipAll true false QAnswer.qaAll).2 rfl rfl rfl⟩

/-- C9: `EndTransaction` with the nesting counter at zero raises a terminal
error and leaves the counter and both pending-reload flags unchanged. -/
theorem endTransaction_notInTransaction (s : TermState) (f g : Bool)
    (h : s.inTransaction = 0) :
    endTransaction s f g = (s, [], .errNotInTransaction) := by
  simp [endTransaction, h]

theorem endTransaction_notInTransaction_witness :
    endTransaction {} true false = ({}, [], .errNotInTransaction) :=
  endTransaction_notInTransaction {} true false rfl

/-- C8: `BeginTransaction` on the zero-to-one transition resets both
pending-reload flags; `ReactOnCommand` inside an open transaction issues no
reread and changes at most the pending flags; `EndTransaction` at an inner
nesting level issues no reread; and the outermost `EndTransaction` on an
active session issues the pending cwd reread and directory reread at most
once each, resetting both flags even when a reread raises. -/
theorem transaction_deferred_reload (s : TermState) (cmd : FSCommand) (f g : Bool) :
    (s.inTransaction = 0 →
      beginTransaction s =
        { s with inTransaction := 1, readCurrentDirectoryPending := false,
                 readDirectoryPending := false })
    ∧ (inTransactionB s = true →
      (reactOnCommand s cmd).2 = [] ∧
      (reactOnCommand s cmd).1.inTransaction = s.inTransaction ∧
      (reactOnCommand s cmd).1.active = s.active ∧
      (reactOnCommand s cmd).1.suspendTransaction = s.suspendTransaction ∧
      (reactOnCommand s cmd).1.autoReadDirectory = s.autoReadDirectory ∧
      (reactOnCommand s cmd).1.autoReadDirectoryAfterOp = s.autoReadDirectoryAfterOp)
    ∧ (1 < s.inTransaction →
      endTransaction s f g = ({ s with inTransaction := s.inTransaction - 1 }, [], .ok))
    ∧ (s.inTransaction = 1 → s.active = true →
      (endTransaction s f g).1.readCurrentDirectoryPending = false ∧
      (endTransaction s f g).1.readDirectoryPending = false ∧
      (endTransaction s f g).2.1.countP ReadEvent.isCwdRead ≤ 1 ∧
      (endTransaction s f g).2.1.countP ReadEvent.isDirRead ≤ 1) := by
  refine ⟨?_, ?_, ?_, ?_⟩
  · intro h
    simp [beginTransaction, h]
  · intro h
    by_cases hc : commandChangesDirectory cmd = true <;>
      by_cases hm :
        (commandModifiesFiles cmd && s.autoReadDirectory && s.autoReadDirectoryAfterOp) = true <;>
      simp [reactOnCommand, hc, hm, h]
  · intro h
    have h0 : ¬s.inTransaction = 0 := by omega
    have h1 : ¬(s.inTransaction - 1 = 0) := by omega
    simp [endTransaction, h0, h1]
  · intro h ha
    have h0 : ¬s.inTransaction = 0 := by omega
    cases hr : s.readCurrentDirectoryPending <;>
      cases hd : s.readDirectoryPending <;>
      cases f <;> cases g <;>
      simp [endTransaction, h0, h, ha, hr, hd, List.countP_cons, List.countP_nil,
        ReadEvent.isCwdRead, ReadEvent.isDirRead]

theorem transaction_deferred_reload_witness :
    (beginTransaction {} = ({ inTransaction := 1 } : TermState))
    ∧ ((endTransaction
          { inTransaction := 1, readCurrentDirectoryPending := true,
            readDirectoryPending := true } true true).1.readCurrentDirectoryPending = false ∧
       (endTransaction
          { inTransaction := 1, readCurrentDirectoryPending := true,
            readDirectoryPending := true } true true).1.readDirectoryPending = false ∧
       (endTransaction
          { inTransaction := 1, readCurrentDirectoryPending := true,
            readDirectoryPending := true } true true).2.1.countP ReadEvent.isCwdRead ≤ 1 ∧
       (endTransaction
          { inTransaction := 1, readCurrentDirectoryPending := true,
            readDirectoryPending := true } true true).2.1.countP ReadEvent.isDirRead ≤ 1) :=
  ⟨(transaction_deferred_reload {} .fsOther false false).1 rfl,
   (transaction_deferred_reload
      { inTransaction := 1, readCurrentDirectoryPending := true,
        readDirectoryPending := true } .fsOther true true).2.2.2 rfl rfl⟩

/-- C3 (amended): a delete call that passes neither the force-delete nor
the alternative flag, on a descriptor with delete-to-recycle enabled and a
non-empty recycle path, moves a target that is not already recycled into
the recycle path under the mask `*-YYYYMMDD-HHMMSS.*`; and a target already
under the recycle path is always hard-deleted, whatever the flags. -/
theorem deleteFile_recycle (sd : FsPolicy) (cd fn : String) (p : RmParams)
    (now : DateTimeNow) :
    (p.dfForceDelete = false → p.dfAlternative = false →
      sd.deleteToRecycleBin = true → sd.recycleBinPath.isEmpty = false →
      isRecycledFile sd.recycleBinPath cd fn = false →
      deleteFileDisposition sd cd fn p now =
        .movedToRecycleBin sd.recycleBinPath (recycleFileMask now))
    ∧ (isRecycledFile sd.recycleBinPath cd fn = true →
      deleteFileDisposition sd cd fn p now = .hardDeleted) := by
  constructor
  · intro h1 h2 h3 h4 h5
    simp [deleteFileDisposition, h1, h2, h3, h4, h5]
  · intro h
    simp [deleteFileDisposition, h]

theorem deleteFile_recycle_witness :
    deleteFileDisposition { deleteToRecycleBin := true, recycleBinPath := "/.trash" }
      "/home" "/work/y.txt" {}
      { year := 2026, month := 10, day := 11, hour := 12, minute := 34, second := 56 } =
      .movedToRecycleBin "/.trash"
        (recycleFileMask
          { year := 2026, month := 10, day := 11, hour := 12, minute := 34, second := 56 }) :=
  (deleteFile_recycle { deleteToRecycleBin := true, recycleBinPath := "/.trash" }
    "/home" "/work/y.txt" {}
    { year := 2026, month := 10, day := 11, hour := 12, minute := 34, second := 56 }).1
    rfl rfl rfl rfl (by decide)

/-- C3 (counterexample): with delete-to-recycle enabled, a non-empty
recycle path, and a target outside the recycle path — exactly the premises
of the claim — a call passing the force-delete flag performs a hard delete,
not a rename. -/
theorem deleteFile_forceDelete_counterexample :
    isRecycledFile "/.trash" "/home" "/work/x.txt" = false ∧
    deleteFileDisposition { deleteToRecycleBin := true, recycleBinPath := "/.trash" }
      "/home" "/work/x.txt" { dfForceDelete := true }
      { year := 2026, month := 10, day := 11, hour := 0, minute := 0, second := 0 } =
      .hardDeleted := by
  constructor
  · rfl
  · rfl

/-- The port scan, when it returns a port, returns a free one and every
port before it (from the scan start) was not free; the result is the start
itself or lies within the bound. -/
theorem findFreePort_some_spec (free : Nat → Bool) (hi : Nat) :
    ∀ n p r, hi + 1 - p ≤ n → findFreePort free hi p = some r →
      free r = true ∧ p ≤ r ∧ (∀ q, p ≤ q → q < r → free q = false) ∧
      (r ≤ hi ∨ r = p) := by
  intro n
  induction n with
  | zero =>
    intro p r hn h
    unfold findFreePort at h
    by_cases hf : free p = true
    · simp [hf] at h
      subst h
      exact ⟨hf, Nat.le_refl _, fun q h1 h2 => absurd (Nat.lt_of_le_of_lt h1 h2)
        (Nat.lt_irrefl _), Or.inr rfl⟩
    · simp [hf] at h
      exact absurd h.1 (by omega)
  | succ m ih =>
    intro p r hn h
    unfold findFreePort at h
    by_cases hf : free p = true
    · simp [hf] at h
      subst h
      exact ⟨hf, Nat.le_refl _, fun q h1 h2 => absurd (Nat.lt_of_le_of_lt h1 h2)
        (Nat.lt_irrefl _), Or.inr rfl⟩
    · simp [hf] at h
      obtain ⟨hph, h⟩ := h
      obtain ⟨h1, h2, h3, h4⟩ := ih (p + 1) r (by omega) h
      refine ⟨h1, by omega, ?_, ?_⟩
      · intro q hq1 hq2
        by_cases hq : q = p
        · subst hq
          simpa using hf
        · exact h3 q (by omega) hq2
      · rcases h4 with h4 | h4
        · exact Or.inl h4
        · exact Or.inl (by omega)

/-- The port scan returns `none` only when no port in the remaining range
is free. -/
theorem findFreePort_none_spec (free : Nat → Bool) (hi : Nat) :
    ∀ n p, hi + 1 - p ≤ n → findFreePort free hi p = none →
      ∀ q, p ≤ q → q ≤ hi → free q = false := by
  intro n
  induction n with
  | zero =>
    intro p hn _ q hq1 hq2
    omega
  | succ m ih =>
    intro p hn h q hq1 hq2
    unfold findFreePort at h
    by_cases hf : free p = true
    · simp [hf] at h
    · simp [hf] at h
      by_cases hq : q = p
      · subst hq
        simpa using hf
      · have hph : p + 1 ≤ hi := by omega
        exact ih (p + 1) (by omega) (h hph) q (by omega) hq2

/-- C7: tunnel bring-up uses the descriptor's non-zero local-port override
verbatim; otherwise, within a sane configured range, it picks the first
port for which a loopback listener can be bound, and returns the fatal
no-free-port error exactly when the whole range is exhausted; the forked
sub-descriptor carries the directive built by `tunnelPortFwdString` from
the chosen port and the real host and port. -/
theorem openTunnel_spec (sd : TunnelSessionData) (cfg : TunnelConfig)
    (free : Nat → Bool) :
    (sd.tunnelLocalPortNumber ≠ 0 →
      openTunnel sd cfg free =
        some (sd.tunnelLocalPortNumber, forkTunnelData sd sd.tunnelLocalPortNumber))
    ∧ (sd.tunnelLocalPortNumber = 0 →
       cfg.tunnelLocalPortNumberLow ≤ cfg.tunnelLocalPortNumberHigh →
       (∀ p d, openTunnel sd cfg free = some (p, d) →
          free p = true ∧ cfg.tunnelLocalPortNumberLow ≤ p ∧
          p ≤ cfg.tunnelLocalPortNumberHigh ∧
          (∀ q, cfg.tunnelLocalPortNumberLow ≤ q → q < p → free q = false) ∧
          d.tunnelPortFwd = tunnelPortFwdString p sd.hostName sd.portNumber)
       ∧ (openTunnel sd cfg free = none →
          ∀ q, cfg.tunnelLocalPortNumberLow ≤ q →
            q ≤ cfg.tunnelLocalPortNumberHigh → free q = false)) := by
  constructor
  · intro h
    simp [openTunnel, openTunnelPort, h]
  · intro h0 hlh
    constructor
    · intro p d hp
      rw [openTunnel, openTunnelPort] at hp
      simp [h0] at hp
      cases hfp : findFreePort free cfg.tunnelLocalPortNumberHigh
          cfg.tunnelLocalPortNumberLow with
      | none => rw [hfp] at hp; simp at hp
      | some r =>
        rw [hfp] at hp
        simp at hp
        obtain ⟨hrp, hd⟩ := hp
        subst hrp
        obtain ⟨h1, h2, h3, h4⟩ :=
          findFreePort_some_spec free cfg.tunnelLocalPortNumberHigh
            (cfg.tunnelLocalPortNumberHigh + 1 - cfg.tunnelLocalPortNumberLow)
            cfg.tunnelLocalPortNumberLow r (Nat.le_refl _) hfp
        refine ⟨h1, h2, ?_, h3, ?_⟩
        · rcases h4 with h4 | h4
          · exact h4
          · omega
        · rw [← hd]
          rfl
    · intro hp q hq1 hq2
      rw [openTunnel, openTunnelPort] at hp
      simp [h0] at hp
      cases hfp : findFreePort free cfg.tunnelLocalPortNumberHigh
          cfg.tunnelLocalPortNumberLow with
      | none =>
        exact findFreePort_none_spec free cfg.tunnelLocalPortNumberHigh
          (cfg.tunnelLocalPortNumberHigh + 1 - cfg.tunnelLocalPortNumberLow)
          cfg.tunnelLocalPortNumberLow (Nat.le_refl _) hfp q hq1 hq2
      | some r => rw [hfp] at hp; simp at hp

theorem openTunnel_spec_witness :
    openTunnel
      { hostName := "real.example", portNumber := 22, tunnelLocalPortNumber := 2222,
        tunnelHostName := "hop.example", tunnelPortNumber := 22 }
      { tunnelLocalPortNumberLow := 50000, tunnelLocalPortNumberHigh := 50099 }
      (fun _ => false) =
      some (2222,
        forkTunnelData
          { hostName := "real.example", portNumber := 22, tunnelLocalPortNumber := 2222,
            tunnelHostName := "hop.example", tunnelPortNumber := 22 } 2222) :=
  (openTunnel_spec
    { hostName := "real.example", portNumber := 22, tunnelLocalPortNumber := 2222,
      tunnelHostName := "hop.example", tunnelPortNumber := 22 }
    { tunnelLocalPortNumberLow := 50000, tunnelLocalPortNumberHigh := 50099 }
    (fun _ => false)).1 (by decide)

/-- C1 (counterexample): collecting with params = by-size only and
mode = both, over one file present on both sides with equal modification
times and different sizes, emits two checklist items — a download-update
AND a mirror upload-update — where the claim promises exactly one item and
no mirror upload-update. -/
theorem syncCollect_bySize_counterexample :
    ((collectDir plainSyncEnv .smBoth { spBySize := true } 1 true "L" "R"
        [("c.txt", LocalTree.file 10 1000)]
        [("c.txt", RemoteTree.file 20 1000 .mfFull)]).map
      (fun i => i.action)) = [SyncAction.saDownloadUpdate, SyncAction.saUploadUpdate] ∧
    ((collectDir plainSyncEnv .smBoth { spBySize := true } 1 true "L" "R"
        [("c.txt", LocalTree.file 10 1000)]
        [("c.txt", RemoteTree.file 20 1000 .mfFull)]).filter
      (fun i => i.action == SyncAction.saUploadUpdate)).length = 1 := by
  constructor
  · rfl
  · rfl

/-- C1 (amended): in a by-size collect (params = by-size only, timestamp
and not-by-time clear) with mode = both, a file present on both sides with
equal modification times but different sizes yields exactly two checklist
items for that file: a download-update and a mirror upload-update — the
equal-time different-size comparison marks both sides modified. -/
theorem syncCollect_bySize_both_items (s1 s2 : Int) (t : Nat) (h : s1 ≠ s2) :
    ((collectDir plainSyncEnv .smBoth { spBySize := true } 1 true "L" "R"
        [("c.txt", LocalTree.file s1 t)]
        [("c.txt", RemoteTree.file s2 t .mfFull)]).map
      (fun i => i.action)) = [SyncAction.saDownloadUpdate, SyncAction.saUploadUpdate] := by
  simp [collectDir, collectDirBody, buildLocalList, collectRemoteEntries, collectOne,
    lookupLocal, updateLocal, emitRemoteItem, phaseCItem, compareFileSides,
    compareFileTime, reduceDateTimePrecision, plainSyncEnv, h,
    LocalTree.entrySize, LocalTree.entryMtime, LocalTree.isDir,
    RemoteTree.entrySize, RemoteTree.entryMtime, RemoteTree.entryFmt, RemoteTree.isDir]

theorem syncCollect_bySize_both_items_witness :
    ((collectDir plainSyncEnv .smBoth { spBySize := true } 1 true "L" "R"
        [("c.txt", LocalTree.file 3 77)]
        [("c.txt", RemoteTree.file 4 77 .mfFull)]).map
      (fun i => i.action)) = [SyncAction.saDownloadUpdate, SyncAction.saUploadUpdate] :=
  syncCollect_bySize_both_items 3 4 77 (by decide)

/-- In mode `smLocal`, the remote-walk emission block only ever assigns
download actions. -/
theorem emitRemoteItem_smLocal (params : SyncParams) (i0 : ChecklistItem)
    (n m : Bool) (it : ChecklistItem) (h0 : i0.action = .saNone)
    (hmem : it ∈ emitRemoteItem .smLocal params i0 n m) :
    it.action = .saDownloadNew ∨ it.action = .saDownloadUpdate := by
  unfold emitRemoteItem at hmem
  split_ifs at hmem <;> simp_all

/-- In mode `smRemote`, the remote-walk emission block only ever assigns
the delete-remote action. -/
theorem emitRemoteItem_smRemote (params : SyncParams) (i0 : ChecklistItem)
    (n m : Bool) (it : ChecklistItem) (h0 : i0.action = .saNone)
    (hmem : it ∈ emitRemoteItem .smRemote params i0 n m) :
    it.action = .saDeleteRemote := by
  unfold emitRemoteItem at hmem
  split_ifs at hmem <;> simp_all

/-- In mode `smLocal`, the second local pass only ever assigns the
delete-local action. -/
theorem phaseCItem_smLocal (params : SyncParams) (rdir : String)
    (fd : SyncFileData) (it : ChecklistItem)
    (hmem : it ∈ phaseCItem .smLocal params rdir fd) :
    it.action = .saDeleteLocal := by
  unfold phaseCItem at hmem
  split_ifs at hmem <;> simp_all

/-- In mode `smRemote`, the second local pass only ever assigns upload
actions. -/
theorem phaseCItem_smRemote (params : SyncParams) (rdir : String)
    (fd : SyncFileData) (it : ChecklistItem)
    (hmem : it ∈ phaseCItem .smRemote params rdir fd) :
    it.action = .saUploadNew ∨ it.action = .saUploadUpdate := by
  unfold phaseCItem at hmem
  split_ifs at hmem <;> simp_all

/-- Every item `SynchronizeCollectFile` adds for one remote entry in mode
`smLocal` is a download item, unless it came out of the recursive
directory call. -/
theorem collectOne_smLocal_mem (env : SyncEnv) (params : SyncParams)
    (sub : String → String → List (String × LocalTree) → List (String × RemoteTree) →
      List ChecklistItem)
    (fl : Bool) (ld rd : String) (llist : List SyncFileData) (name : String)
    (rt : RemoteTree) (it : ChecklistItem)
    (hmem : it ∈ (collectOne env .smLocal params sub fl ld rd llist name rt).2) :
    it.action = .saDownloadNew ∨ it.action = .saDownloadUpdate ∨
    (∃ a b c d, it ∈ sub a b c d) := by
  unfold collectOne at hmem
  rcases hF : env.filterMatch with _ | f <;> simp only [hF] at hmem <;> split at hmem
  case _ =>
    split at hmem
    · have hmem2 : it ∈ emitRemoteItem SyncMode.smLocal params _ true false := hmem
      rcases emitRemoteItem_smLocal params _ _ _ it rfl hmem2 with h | h
      · exact Or.inl h
      · exact Or.inr (Or.inl h)
    · split at hmem
      · simp at hmem
      · split at hmem
        · have hmem2 : it ∈ emitRemoteItem SyncMode.smLocal params _ false _ := hmem
          rcases emitRemoteItem_smLocal params _ _ _ it rfl hmem2 with h | h
          · exact Or.inl h
          · exact Or.inr (Or.inl h)
        · split at hmem
          · exact Or.inr (Or.inr ⟨_, _, _, _, hmem⟩)
          · simp at hmem
  case _ => simp at hmem
  case _ =>
    split at hmem
    · have hmem2 : it ∈ emitRemoteItem SyncMode.smLocal params _ true false := hmem
      rcases emitRemoteItem_smLocal params _ _ _ it rfl hmem2 with h | h
      · exact Or.inl h
      · exact Or.inr (Or.inl h)
    · split at hmem
      · simp at hmem
      · split at hmem
        · have hmem2 : it ∈ emitRemoteItem SyncMode.smLocal params _ false _ := hmem
          rcases emitRemoteItem_smLocal params _ _ _ it rfl hmem2 with h | h
          · exact Or.inl h
          · exact Or.inr (Or.inl h)
        · split at hmem
          · exact Or.inr (Or.inr ⟨_, _, _, _, hmem⟩)
          · simp at hmem
  case _ => simp at hmem

/-- Every item `SynchronizeCollectFile` adds for one remote entry in mode
`smRemote` is a delete-remote item, unless it came out of the recursive
directory call. -/
theorem collectOne_smRemote_mem (env : SyncEnv) (params : SyncParams)
    (sub : String → String → List (String × LocalTree) → List (String × RemoteTree) →
      List ChecklistItem)
    (fl : Bool) (ld rd : String) (llist : List SyncFileData) (name : String)
    (rt : RemoteTree) (it : ChecklistItem)
    (hmem : it ∈ (collectOne env .smRemote params sub fl ld rd llist name rt).2) :
    it.action = .saDeleteRemote ∨ (∃ a b c d, it ∈ sub a b c d) := by
  unfold collectOne at hmem
  rcases hF : env.filterMatch with _ | f <;> simp only [hF] at hmem <;> split at hmem
  case _ =>
    split at hmem
    · have hmem2 : it ∈ emitRemoteItem SyncMode.smRemote params _ true false := hmem
      exact Or.inl (emitRemoteItem_smRemote params _ _ _ it rfl hmem2)
    · split at hmem
      · simp at hmem
      · split at hmem
        · have hmem2 : it ∈ emitRemoteItem SyncMode.smRemote params _ false _ := hmem
          exact Or.inl (emitRemoteItem_smRemote params _ _ _ it rfl hmem2)
        · split at hmem
          · exact Or.inr ⟨_, _, _, _, hmem⟩
          · simp at hmem
  case _ => simp at hmem
  case _ =>
    split at hmem
    · have hmem2 : it ∈ emitRemoteItem SyncMode.smRemote params _ true false := hmem
      exact Or.inl (emitRemoteItem_smRemote params _ _ _ it rfl hmem2)
    · split at hmem
      · simp at hmem
      · split at hmem
        · have hmem2 : it ∈ emitRemoteItem SyncMode.smRemote params _ false _ := hmem
          exact Or.inl (emitRemoteItem_smRemote params _ _ _ it rfl hmem2)
        · split at hmem
          · exact Or.inr ⟨_, _, _, _, hmem⟩
          · simp at hmem
  case _ => simp at hmem

/-- The remote walk in mode `smLocal` only adds download items besides
what the recursive calls add. -/
theorem collectRemoteEntries_smLocal_mem (env : SyncEnv) (params : SyncParams)
    (sub : String → String → List (String × LocalTree) → List (String × RemoteTree) →
      List ChecklistItem)
    (fl : Bool) (ld rd : String) :
    ∀ (rentries : List (String × RemoteTree)) (llist : List SyncFileData)
      (it : ChecklistItem),
      it ∈ (collectRemoteEntries env .smLocal params sub fl ld rd llist rentries).2 →
      it.action = .saDownloadNew ∨ it.action = .saDownloadUpdate ∨
      (∃ a b c d, it ∈ sub a b c d) := by
  intro rentries
  induction rentries with
  | nil =>
    intro llist it hmem
    simp [collectRemoteEntries] at hmem
  | cons p rest ih =>
    intro llist it hmem
    rw [collectRemoteEntries] at hmem
    simp only [List.mem_append] at hmem
    rcases hmem with hmem | hmem
    · exact collectOne_smLocal_mem env params sub fl ld rd llist p.1 p.2 it hmem
    · exact ih _ it hmem

/-- The remote walk in mode `smRemote` only adds delete-remote items
besides what the recursive calls add. -/
theorem collectRemoteEntries_smRemote_mem (env : SyncEnv) (params : SyncParams)
    (sub : String → String → List (String × LocalTree) → List (String × RemoteTree) →
      List ChecklistItem)
    (fl : Bool) (ld rd : String) :
    ∀ (rentries : List (String × RemoteTree)) (llist : List SyncFileData)
      (it : ChecklistItem),
      it ∈ (collectRemoteEntries env .smRemote params sub fl ld rd llist rentries).2 →
      it.action = .saDeleteRemote ∨ (∃ a b c d, it ∈ sub a b c d) := by
  intro rentries
  induction rentries with
  | nil =>
    intro llist it hmem
    simp [collectRemoteEntries] at hmem
  | cons p rest ih =>
    intro llist it hmem
    rw [collectRemoteEntries] at hmem
    simp only [List.mem_append] at hmem
    rcases hmem with hmem | hmem
    · exact collectOne_smRemote_mem env params sub fl ld rd llist p.1 p.2 it hmem
    · exact ih _ it hmem

/-- One directory pair in mode `smLocal` only yields download and
delete-local items besides what the recursive calls add. -/
theorem collectDirBody_smLocal_mem (env : SyncEnv) (params : SyncParams)
    (sub : String → String → List (String × LocalTree) → List (String × RemoteTree) →
      List ChecklistItem)
    (fl : Bool) (ld rd : String) (les : List (String × LocalTree))
    (res : List (String × RemoteTree)) (it : ChecklistItem)
    (hmem : it ∈ collectDirBody env .smLocal params sub fl ld rd les res) :
    it.action = .saDownloadNew ∨ it.action = .saDownloadUpdate ∨
    it.action = .saDeleteLocal ∨ (∃ a b c d, it ∈ sub a b c d) := by
  unfold collectDirBody at hmem
  simp only [List.mem_append, List.mem_flatten, List.mem_map] at hmem
  rcases hmem with hmem | ⟨l, ⟨fd, _, hfd⟩, hit⟩
  · rcases collectRemoteEntries_smLocal_mem env params sub fl _ _ _ _ it hmem with
      h | h | h
    · exact Or.inl h
    · exact Or.inr (Or.inl h)
    · exact Or.inr (Or.inr (Or.inr h))
  · subst hfd
    exact Or.inr (Or.inr (Or.inl (phaseCItem_smLocal _ _ _ _ hit)))

/-- One directory pair in mode `smRemote` only yields delete-remote and
upload items besides what the recursive calls add. -/
theorem collectDirBody_smRemote_mem (env : SyncEnv) (params : SyncParams)
    (sub : String → String → List (String × LocalTree) → List (String × RemoteTree) →
      List ChecklistItem)
    (fl : Bool) (ld rd : String) (les : List (String × LocalTree))
    (res : List (String × RemoteTree)) (it : ChecklistItem)
    (hmem : it ∈ collectDirBody env .smRemote params sub fl ld rd les res) :
    it.action = .saDeleteRemote ∨ it.action = .saUploadNew ∨
    it.action = .saUploadUpdate ∨ (∃ a b c d, it ∈ sub a b c d) := by
  unfold collectDirBody at hmem
  simp only [List.mem_append, List.mem_flatten, List.mem_map] at hmem
  rcases hmem with hmem | ⟨l, ⟨fd, _, hfd⟩, hit⟩
  · rcases collectRemoteEntries_smRemote_mem env params sub fl _ _ _ _ it hmem with h | h
    · exact Or.inl h
    · exact Or.inr (Or.inr (Or.inr h))
  · subst hfd
    rcases phaseCItem_smRemote _ _ _ _ hit with h | h
    · exact Or.inr (Or.inl h)
    · exact Or.inr (Or.inr (Or.inl h))

/-- In mode `smLocal` the collector plans no remote-side mutation. -/
theorem collectDir_smLocal_actions (env : SyncEnv) (params : SyncParams) :
    ∀ (fuel : Nat) (fl : Bool) (ld rd : String) (les : List (String × LocalTree))
      (res : List (String × RemoteTree)) (it : ChecklistItem),
      it ∈ collectDir env .smLocal params fuel fl ld rd les res →
      it.action ≠ .saUploadNew ∧ it.action ≠ .saUploadUpdate ∧
      it.action ≠ .saDeleteRemote := by
  intro fuel
  induction fuel with
  | zero =>
    intro fl ld rd les res it hmem
    simp [collectDir] at hmem
  | succ n ih =>
    intro fl ld rd les res it hmem
    rw [collectDir] at hmem
    rcases collectDirBody_smLocal_mem _ _ _ _ _ _ _ _ _ hmem with
      h | h | h | ⟨a, b, c, d, hit⟩
    · simp [h]
    · simp [h]
    · simp [h]
    · exact ih false a b c d it hit

/-- In mode `smRemote` the collector plans no local-side mutation. -/
theorem collectDir_smRemote_actions (env : SyncEnv) (params : SyncParams) :
    ∀ (fuel : Nat) (fl : Bool) (ld rd : String) (les : List (String × LocalTree))
      (res : List (String × RemoteTree)) (it : ChecklistItem),
      it ∈ collectDir env .smRemote params fuel fl ld rd les res →
      it.action ≠ .saDownloadNew ∧ it.action ≠ .saDownloadUpdate ∧
      it.action ≠ .saDeleteLocal := by
  intro fuel
  induction fuel with
  | zero =>
    intro fl ld rd les res it hmem
    simp [collectDir] at hmem
  | succ n ih =>
    intro fl ld rd les res it hmem
    rw [collectDir] at hmem
    rcases collectDirBody_smRemote_mem _ _ _ _ _ _ _ _ _ hmem with
      h | h | h | ⟨a, b, c, d, hit⟩
    · simp [h]
    · simp [h]
    · simp [h]
    · exact ih false a b c d it hit

/-- C5: a collect run in mode=local plans no upload-new, upload-update or
delete-remote action; in mode=remote it plans no download-new,
download-update or delete-local action; and in mode=both items of both
directions may appear (witnessed by a run with one new file on each
side). -/
theorem syncCollect_mode_restriction (env : SyncEnv) (params : SyncParams)
    (fuel : Nat) (fl : Bool) (ld rd : String) (les : List (String × LocalTree))
    (res : List (String × RemoteTree)) :
    (∀ it ∈ collectDir env .smLocal params fuel fl ld rd les res,
      it.action ≠ .saUploadNew ∧ it.action ≠ .saUploadUpdate ∧
      it.action ≠ .saDeleteRemote)
    ∧ (∀ it ∈ collectDir env .smRemote params fuel fl ld rd les res,
      it.action ≠ .saDownloadNew ∧ it.action ≠ .saDownloadUpdate ∧
      it.action ≠ .saDeleteLocal)
    ∧ ((∃ it ∈ collectDir plainSyncEnv .smBoth {} 1 true "L" "R"
          [("a.txt", LocalTree.file 1 5)] [("b.txt", RemoteTree.file 2 7 .mfFull)],
        it.action = .saDownloadNew) ∧
       (∃ it ∈ collectDir plainSyncEnv .smBoth {} 1 true "L" "R"
          [("a.txt", LocalTree.file 1 5)] [("b.txt", RemoteTree.file 2 7 .mfFull)],
        it.action = .saUploadNew)) := by
  refine ⟨fun it hmem => collectDir_smLocal_actions env params fuel fl ld rd les res it hmem,
    fun it hmem => collectDir_smRemote_actions env params fuel fl ld rd les res it hmem,
    ?_, ?_⟩
  · decide
  · decide

theorem syncCollect_mode_restriction_witness :
    (({ isDirectory := false,
        localInfo := { fileName := "a.txt", directory := "L\\", modification := 5,
                       modificationFmt := .mfFull, size := 1 },
        remoteInfo := { directory := "R/" },
        action := .saDeleteLocal, checked := false } : ChecklistItem).action ≠
      SyncAction.saUploadNew ∧
     ({ isDirectory := false,
        localInfo := { fileName := "a.txt", directory := "L\\", modification := 5,
                       modificationFmt := .mfFull, size := 1 },
        remoteInfo := { directory := "R/" },
        action := .saDeleteLocal, checked := false } : ChecklistItem).action ≠
      SyncAction.saUploadUpdate ∧
     ({ isDirectory := false,
        localInfo := { fileName := "a.txt", directory := "L\\", modification := 5,
                       modificationFmt := .mfFull, size := 1 },
        remoteInfo := { directory := "R/" },
        action := .saDeleteLocal, checked := false } : ChecklistItem).action ≠
      SyncAction.saDeleteRemote) :=
  (syncCollect_mode_restriction plainSyncEnv {} 1 true "L" "R"
    [("a.txt", LocalTree.file 1 5)] []).1 _ (by decide)

/-- The bulk calls actually issued are a sublist of the candidate list. -/
theorem runOps_sublist (bulkOk : BulkOp → Bool) :
    ∀ l : List BulkOp, (runOps bulkOk l).1.Sublist l := by
  intro l
  induction l with
  | nil => simp [runOps]
  | cons op rest ih =>
    rw [runOps]
    by_cases h : bulkOk op = true
    · simpa [h] using ih.cons₂ op
    · simp [h]

/-- Every issued bulk call except possibly the last one succeeded. -/
theorem runOps_dropLast_ok (bulkOk : BulkOp → Bool) :
    ∀ l : List BulkOp, ∀ e ∈ (runOps bulkOk l).1.dropLast, bulkOk e = true := by
  intro l
  induction l with
  | nil => simp [runOps]
  | cons op rest ih =>
    intro e he
    rw [runOps] at he
    by_cases h : bulkOk op = true
    · simp only [h, if_true] at he
      cases hr : (runOps bulkOk rest).1 with
      | nil => rw [hr] at he; simp at he
      | cons x xs =>
        rw [hr, List.dropLast_cons₂] at he
        rcases List.mem_cons.mp he with he | he
        · exact he ▸ h
        · exact ih e (by rw [hr]; exact he)
    · simp [h] at he

/-- A fully successful run means every issued bulk call succeeded. -/
theorem runOps_ok_all (bulkOk : BulkOp → Bool) :
    ∀ l : List BulkOp, (runOps bulkOk l).2 = true →
      ∀ e ∈ (runOps bulkOk l).1, bulkOk e = true := by
  intro l
  induction l with
  | nil => simp [runOps]
  | cons op rest ih =>
    intro hok e he
    rw [runOps] at hok he
    by_cases h : bulkOk op = true
    · simp only [h, if_true] at hok he
      rcases List.mem_cons.mp he with he | he
      · exact he ▸ h
      · exact ih hok e he
    · simp [h] at hok

/-- An aborted run ends with the one failed bulk call. -/
theorem runOps_fail (bulkOk : BulkOp → Bool) :
    ∀ l : List BulkOp, (runOps bulkOk l).2 = false →
      ∃ pre e, (runOps bulkOk l).1 = pre ++ [e] ∧ bulkOk e = false := by
  intro l
  induction l with
  | nil => simp [runOps]
  | cons op rest ih =>
    intro hfail
    rw [runOps] at hfail ⊢
    by_cases h : bulkOk op = true
    · simp only [h, if_true] at hfail ⊢
      obtain ⟨pre, e, h1, h2⟩ := ih hfail
      exact ⟨op :: pre, e, by simp [h1], h2⟩
    · simp only [h, if_false] at hfail ⊢
      exact ⟨[], op, by simp [h], by simpa using h⟩

/-- The candidate list of one group is strictly increasing in the fixed
bulk-call order. -/
theorem groupOps_sorted (tsMode : Bool) (grp : List ChecklistItem) :
    (groupOps tsMode grp).Pairwise (fun a b => a.rank < b.rank) := by
  unfold groupOps
  split_ifs <;> simp [List.pairwise_append, BulkOp.rank]

/-- The bulk calls one non-timestamp group issues are strictly increasing
in the fixed order. -/
theorem runGroup_pairwise (bulkOk : BulkOp → Bool) (grp : List ChecklistItem) :
    (runGroup bulkOk false grp).1.Pairwise (fun a b => a.rank < b.rank) := by
  unfold runGroup
  split_ifs with h1 h2
  · simp
  · exact h2.elim
  · exact (groupOps_sorted false grp).sublist (runOps_sublist bulkOk _)

/-- Every bulk call a non-timestamp group issues, except possibly its
last, succeeded. -/
theorem runGroup_dropLast_ok (bulkOk : BulkOp → Bool) (grp : List ChecklistItem) :
    ∀ e ∈ (runGroup bulkOk false grp).1.dropLast, bulkOk e = true := by
  unfold runGroup
  split_ifs with h1 h2
  · simp
  · exact h2.elim
  · exact runOps_dropLast_ok bulkOk _

/-- A non-timestamp group that did not abort had only successful bulk
calls. -/
theorem runGroup_ok_all (bulkOk : BulkOp → Bool) (grp : List ChecklistItem) :
    (runGroup bulkOk false grp).2 = true →
      ∀ e ∈ (runGroup bulkOk false grp).1, bulkOk e = true := by
  unfold runGroup
  split_ifs with h1 h2
  · simp
  · exact h2.elim
  · exact runOps_ok_all bulkOk _

/-- A non-timestamp group that aborted ends with its one failed bulk
call. -/
theorem runGroup_fail (bulkOk : BulkOp → Bool) (grp : List ChecklistItem) :
    (runGroup bulkOk false grp).2 = false →
      ∃ pre e, (runGroup bulkOk false grp).1 = pre ++ [e] ∧ bulkOk e = false := by
  unfold runGroup
  split_ifs with h1 h2
  · simp
  · exact h2.elim
  · exact runOps_fail bulkOk _

/-- Filtering a constant-tagged event list by tag keeps everything or
nothing. -/
theorem map_tag_filter (g k : Nat) (l : List BulkOp) :
    ((l.map (fun e => (g, e))).filter (fun e => e.1 == k)) =
      (if g = k then l.map (fun e => (g, e)) else []) := by
  induction l with
  | nil => simp
  | cons a t ih => by_cases h : g = k <;> simp [h, ih]

/-- Membership in the dropLast of an append comes from the left part or
from the dropLast of the right part. -/
theorem mem_dropLast_append (A B : List (Nat × BulkOp)) (e : Nat × BulkOp)
    (h : e ∈ (A ++ B).dropLast) : e ∈ A ∨ e ∈ B.dropLast := by
  by_cases hB : B = []
  · subst hB
    simp only [List.append_nil] at h
    exact Or.inl ((List.dropLast_sublist A).mem h)
  · rw [List.dropLast_append_of_ne_nil _ hB] at h
    simpa using h

/-- The invariant of the apply loop: events carry tags at or above the
running ordinal; events of one tag are strictly ordered by bulk-call rank;
every event but the last succeeded; a clean finish has only successes; an
abort ends the trace at the failed call. -/
theorem synchronizeApplyAux_spec (bulkOk : BulkOp → Bool) :
    ∀ (n : Nat) (l : List ChecklistItem) (g : Nat), l.length ≤ n →
      (∀ e ∈ (synchronizeApplyAux bulkOk false l g).1, g ≤ e.1)
      ∧ (∀ k, ((synchronizeApplyAux bulkOk false l g).1.filter
          (fun e => e.1 == k)).Pairwise (fun a b => a.2.rank < b.2.rank))
      ∧ (∀ e ∈ (synchronizeApplyAux bulkOk false l g).1.dropLast, bulkOk e.2 = true)
      ∧ ((synchronizeApplyAux bulkOk false l g).2 = true →
          ∀ e ∈ (synchronizeApplyAux bulkOk false l g).1, bulkOk e.2 = true)
      ∧ ((synchronizeApplyAux bulkOk false l g).2 = false →
          ∃ pre e, (synchronizeApplyAux bulkOk false l g).1 = pre ++ [e] ∧
            bulkOk e.2 = false) := by
  intro n
  induction n with
  | zero =>
    intro l g hn
    have hl : l = [] := List.length_eq_zero.mp (Nat.le_zero.mp hn)
    subst hl
    rw [synchronizeApplyAux]
    refine ⟨by simp, by simp, by simp, by simp, by simp⟩
  | succ m ih =>
    intro l g hn
    cases l with
    | nil =>
      rw [synchronizeApplyAux]
      refine ⟨by simp, by simp, by simp, by simp, by simp⟩
    | cons it rest =>
      rw [synchronizeApplyAux]
      cases hok : (runGroup bulkOk false (it :: List.takeWhile (sameGroup it) rest)).2 with
      | true =>
        simp only [hok, reduceIte]
        have hlen : (List.dropWhile (sameGroup it) rest).length ≤ m := by
          have := (List.dropWhile_sublist (p := sameGroup it) (l := rest)).length_le
          simp at hn
          omega
        obtain ⟨iht, ihp, ihd, ihok, ihf⟩ := ih (List.dropWhile (sameGroup it) rest) (g + 1) hlen
        have hgall : ∀ e ∈ (runGroup bulkOk false
            (it :: List.takeWhile (sameGroup it) rest)).1.map (fun e => (g, e)), e.1 = g := by
          intro e he
          simp only [List.mem_map] at he
          obtain ⟨x, _, hx⟩ := he
          simp [← hx]
        refine ⟨?_, ?_, ?_, ?_, ?_⟩
        · intro e he
          simp only [List.mem_append] at he
          rcases he with he | he
          · exact (hgall e he).ge
          · exact Nat.le_of_succ_le (iht e he)
        · intro k
          rw [List.filter_append, map_tag_filter]
          by_cases hk : g = k
          · subst hk
            have h2 : ((synchronizeApplyAux bulkOk false
                (List.dropWhile (sameGroup it) rest) (g + 1)).1.filter
                  (fun e => e.1 == g)) = [] := by
              rw [List.filter_eq_nil_iff]
              intro e he
              have := iht e he
              simp only [beq_iff_eq]
              omega
            rw [if_pos rfl, h2, List.append_nil, List.pairwise_map]
            exact runGroup_pairwise bulkOk _
          · rw [if_neg hk, List.nil_append]
            exact ihp k
        · intro e he
          rcases mem_dropLast_append _ _ _ he with he | he
          · simp only [List.mem_map] at he
            obtain ⟨x, hx, hxe⟩ := he
            have := runGroup_ok_all bulkOk _ hok x hx
            simp [← hxe, this]
          · exact ihd e he
        · intro h2 e he
          simp only [List.mem_append] at he
          rcases he with he | he
          · simp only [List.mem_map] at he
            obtain ⟨x, hx, hxe⟩ := he
            have := runGroup_ok_all bulkOk _ hok x hx
            simp [← hxe, this]
          · exact ihok h2 e he
        · intro h2
          obtain ⟨pre, e, h3, h4⟩ := ihf h2
          exact ⟨(runGroup bulkOk false
            (it :: List.takeWhile (sameGroup it) rest)).1.map (fun e => (g, e)) ++ pre,
            e, by simp [h3], h4⟩
      | false =>
        simp only [Bool.false_eq_true, if_false]
        obtain ⟨pre, e, h3, h4⟩ := runGroup_fail bulkOk _ hok
        refine ⟨?_, ?_, ?_, ?_, ?_⟩
        · intro x hx
          simp only [List.mem_map] at hx
          obtain ⟨y, _, hy⟩ := hx
          simp [← hy]
        · intro k
          rw [map_tag_filter]
          by_cases hk : g = k
          · rw [if_pos hk, List.pairwise_map]
            exact runGroup_pairwise bulkOk _
          · rw [if_neg hk]
            exact List.Pairwise.nil
        · intro x hx
          rw [h3, List.map_append] at hx
          rcases mem_dropLast_append _ _ _ hx with hx | hx
          · simp only [List.mem_map] at hx
            obtain ⟨y, hy, hxy⟩ := hx
            have : bulkOk y = true := by
              refine runGroup_dropLast_ok bulkOk
                (it :: List.takeWhile (sameGroup it) rest) y ?_
              rw [h3, List.dropLast_append_of_ne_nil _ (by simp)]
              simpa using hy
            simp [← hxy, this]
          · simp at hx
        · intro h5
          simp at h5
        · intro _
          exact ⟨pre.map (fun e => (g, e)), (g, e), by simp [h3], by simpa using h4⟩

/-- C6: during a non-timestamp synchronize apply, within each consecutive
(local-directory, remote-directory) group the issued bulk calls follow the
order download → delete-remote → upload → delete-local (strictly
increasing rank per group ordinal, hence each at most once); every bulk
call but the last succeeded (so nothing runs after a cancelled one); and
an aborted apply ends exactly at the failed bulk call. -/
theorem synchronizeApply_ordering (bulkOk : BulkOp → Bool)
    (checklist : List ChecklistItem) :
    (∀ k, ((synchronizeApply bulkOk false checklist).1.filter
        (fun e => e.1 == k)).Pairwise (fun a b => a.2.rank < b.2.rank))
    ∧ (∀ e ∈ (synchronizeApply bulkOk false checklist).1.dropLast, bulkOk e.2 = true)
    ∧ ((synchronizeApply bulkOk false checklist).2 = false →
        ∃ pre e, (synchronizeApply bulkOk false checklist).1 = pre ++ [e] ∧
          bulkOk e.2 = false) := by
  obtain ⟨_, h2, h3, _, h5⟩ :=
    synchronizeApplyAux_spec bulkOk checklist.length checklist 0 (Nat.le_refl _)
  exact ⟨h2, h3, h5⟩

theorem synchronizeApply_ordering_witness :
    ∃ pre e,
      (synchronizeApply (fun _ => false) false
        [{ localInfo := { fileName := "a", directory := "L" },
           remoteInfo := { fileName := "a", directory := "R" },
           action := .saDownloadNew, checked := true }]).1 = pre ++ [e] ∧
      (fun _ => false : BulkOp → Bool) e.2 = false :=
  (synchronizeApply_ordering (fun _ => false)
    [{ localInfo := { fileName := "a", directory := "L" },
       remoteInfo := { fileName := "a", directory := "R" },
       action := .saDownloadNew, checked := true }]).2.2
    (by simp [synchronizeApply, synchronizeApplyAux, runGroup, runOps, groupOps,
      groupDownloadList, groupDeleteRemoteList, groupUploadList, groupDeleteLocalList])

end NetBox
